import Mathlib

/-!
Verification development for the nuxt-studio-sso OAuth2 authorization engine.

The persisted data model is embedded from the SQLite migration
`src/server/db/migrations/sqlite/0000_equal_sheva_callister.sql`.  The
token-engine operations (SecretHasher, AuthorizationCodeManager,
RefreshTokenManager, TokenIssuer, GrantValidator) have no implementation under
`src/`; they are modelled from the specification (spec.md sections 4 and 5)
over that schema, as indicated in each doc comment.  The dashboard's
`validateUrl` is embedded from `src/app/pages/dashboard/clients/[id].vue`.
-/

namespace StudioSSO

/-- Error taxonomy of the token endpoint (spec section 7). -/
inductive OAuthError where
  | invalidClient
  | invalidGrant
  | invalidScope
  | serverError
deriving DecidableEq, Repr

/-- Row of the `authorization_codes` table (migration lines 1-12): code value
(primary key), owning client and user, granted redirect URI, scope, optional
PKCE challenge and method, absolute expiry (integer timestamp). -/
structure AuthorizationCode where
  code : String
  clientId : String
  userId : String
  redirectUri : String
  scope : String
  codeChallenge : Option String
  codeChallengeMethod : Option String
  expiresAt : Nat
deriving DecidableEq, Repr

/-- Row of the `oauth_clients` table (migration lines 14-25). -/
structure OAuthClient where
  id : String
  secretHash : String
  name : String
  redirectUris : String
  websiteUrl : String
  previewUrlPattern : Option String
  ownerId : Option String
  createdAt : Nat
  isActive : Bool
deriving DecidableEq, Repr

/-- Row of the `refresh_tokens` table (migration lines 27-37): id (primary
key), hash of the bearer value (unique, migration line 39), owning client and
user, scope, absolute expiry, nullable revoked-at timestamp.  The table has no
further columns: in particular it stores no lineage identifier. -/
structure RefreshToken where
  id : String
  tokenHash : String
  clientId : String
  userId : String
  scope : String
  expiresAt : Nat
  revokedAt : Option Nat
deriving DecidableEq, Repr

/-- The persistent store: the three tables the token engine touches. -/
structure Store where
  clients : List OAuthClient
  codes : List AuthorizationCode
  tokens : List RefreshToken
deriving DecidableEq, Repr

/-- Modelled from the spec: the mismatch-accumulating comparison loop of
SecretHasher (spec section 4.2, implementation absent from src).  The loop
walks both inputs to their full length, adding one for every position that
differs (or exists on only one side), and never exits early; the comparison
result is read off the accumulator at the end. -/
def ctScan : List Char → List Char → Nat → Nat
  | [], bs, acc => acc + bs.length
  | _ :: as, [], acc => ctScan as [] (acc + 1)
  | a :: as, b :: bs, acc => ctScan as bs (acc + (if a = b then 0 else 1))

/-- Number of loop iterations `ctScan` performs: the cost model of the
constant-time comparison. -/
def ctScanSteps : List Char → List Char → Nat
  | [], bs => bs.length
  | _ :: as, [] => 1 + ctScanSteps as []
  | _ :: as, _ :: bs => 1 + ctScanSteps as bs

/-- Modelled from the spec: timing-insensitive string equality used by
SecretHasher.verify (spec section 4.2). -/
def ctEq (a b : String) : Bool :=
  ctScan a.toList b.toList 0 == 0

/-- Modelled from the spec: SecretHasher.verify (spec section 4.2,
implementation absent from src).  The one-way hash function itself is a
parameter; verification recomputes the hash of the presented secret and
compares it to the stored hash with the constant-time comparison.  It is a
total function: malformed input yields `false`, never an exception. -/
def verifySecret (hashFn : String → String) (secret stored : String) : Bool :=
  ctEq (hashFn secret) stored

/-- Character of the base64url alphabet at index `n` (0-63). -/
def b64Char (n : Nat) : Char :=
  if n < 26 then Char.ofNat (65 + n)
  else if n < 52 then Char.ofNat (97 + (n - 26))
  else if n < 62 then Char.ofNat (48 + (n - 52))
  else if n = 62 then Char.ofNat 45
  else Char.ofNat 95

/-- Modelled from the spec: base64url encoding without padding of a byte
sequence (spec sections 4.3 and 8), as used for the PKCE S256 transform. -/
def base64urlNoPad : List Nat → List Char
  | [] => []
  | [b1] => [b64Char (b1 / 4), b64Char (b1 % 4 * 16)]
  | [b1, b2] => [b64Char (b1 / 4), b64Char (b1 % 4 * 16 + b2 / 16), b64Char (b2 % 16 * 4)]
  | b1 :: b2 :: b3 :: rest =>
      b64Char (b1 / 4) :: b64Char (b1 % 4 * 16 + b2 / 16) ::
        b64Char (b2 % 16 * 4 + b3 / 64) :: b64Char (b3 % 64) :: base64urlNoPad rest

/-- Modelled from the spec: recompute the PKCE challenge from a verifier with
the stored method (spec section 4.3): method `S256` is base64url (no padding)
of the SHA-256 digest of the verifier, any other stored method is the `plain`
transform (the verifier itself).  The SHA-256 digest function is a parameter
of the model. -/
def computeChallenge (sha256 : String → List Nat) (method : Option String)
    (verifier : String) : String :=
  if method == some "S256" then String.mk (base64urlNoPad (sha256 verifier))
  else verifier

/-- Modelled from the spec: the PKCE acceptance decision of
AuthorizationCodeManager.Redeem (spec section 4.3).  A stored challenge
requires a verifier whose recomputed challenge equals it; with no stored
challenge a supplied verifier is ignored. -/
def pkceOk (sha256 : String → List Nat) (challenge method : Option String)
    (verifier : Option String) : Bool :=
  match challenge with
  | none => true
  | some ch =>
    match verifier with
    | none => false
    | some v => computeChallenge sha256 method v == ch

/-- Result of a successful code redemption (spec section 4.3). -/
structure RedeemResult where
  userId : String
  scope : String
deriving DecidableEq, Repr

/-- Modelled from the spec: the validation chain Redeem runs on the fetched
record (spec section 4.3): owning client match, byte-for-byte redirect URI
match, PKCE check, strict expiry check; each failure is `invalidGrant`. -/
def redeemCheck (sha256 : String → List Nat) (now : Nat) (r : AuthorizationCode)
    (clientId redirectUri : String) (verifier : Option String) :
    Except OAuthError RedeemResult :=
  if r.clientId != clientId then .error .invalidGrant
  else if r.redirectUri != redirectUri then .error .invalidGrant
  else if !(pkceOk sha256 r.codeChallenge r.codeChallengeMethod verifier) then
    .error .invalidGrant
  else if now < r.expiresAt then .ok ⟨r.userId, r.scope⟩
  else .error .invalidGrant

/-- Modelled from the spec: AuthorizationCodeManager.Redeem (spec section 4.3,
implementation absent from src).  It atomically fetches-and-deletes the record
matching the code value; a missing record is `invalidGrant`; the fetched
record then passes through `redeemCheck`. -/
def redeem (sha256 : String → List Nat) (s : Store) (now : Nat)
    (code clientId redirectUri : String) (verifier : Option String) :
    Except OAuthError RedeemResult × Store :=
  match s.codes.find? (fun q => q.code == code) with
  | none => (.error .invalidGrant, s)
  | some r =>
      (redeemCheck sha256 now r clientId redirectUri verifier,
        { s with codes := s.codes.filter (fun q => q.code != code) })

/-- Authorization-code time to live in seconds (spec section 4.3 recommends at
most ten minutes). -/
def codeTtl : Nat := 600

/-- Modelled from the spec: AuthorizationCodeManager.Issue (spec section 4.3,
implementation absent from src).  The generated code value is a parameter (the
implementation draws it at random); the operation performs the single write of
a pending record expiring `codeTtl` after `now`. -/
def issueCode (codeValue : String) (s : Store) (now : Nat)
    (clientId userId redirectUri scope : String)
    (challenge method : Option String) : Store :=
  { s with codes :=
      ⟨codeValue, clientId, userId, redirectUri, scope, challenge, method,
        now + codeTtl⟩ :: s.codes }

/-- Access-token time to live in seconds (spec section 4.4 recommends 15-60
minutes). -/
def accessTtl : Nat := 3600

/-- Refresh-token time to live in seconds. -/
def refreshTtl : Nat := 2592000

/-- Self-contained access token carrying client id, user id, scope and expiry
(spec section 3, AccessToken; not separately persisted). -/
structure AccessToken where
  clientId : String
  userId : String
  scope : String
  expiresAt : Nat
deriving DecidableEq, Repr

/-- Token pair returned by TokenIssuer.IssueGrant (spec section 4.4). -/
structure GrantTokens where
  accessToken : AccessToken
  refreshToken : String
  expiresIn : Nat
deriving DecidableEq, Repr

/-- Modelled from the spec: TokenIssuer.IssueGrant (spec section 4.4,
implementation absent from src).  The random bearer value and record id are
parameters; the operation persists only the hash of the bearer plus metadata
and returns the bearer once.  The unique index
`refresh_tokens_token_hash_unique` (migration line 39) is modelled by
rejecting an insert whose token hash is already present, as the store's
uniqueness guard would. -/
def issueGrant (hashFn : String → String) (genId genBearer : String)
    (s : Store) (now : Nat) (clientId userId scope : String) :
    Except OAuthError GrantTokens × Store :=
  let newHash := hashFn genBearer
  if s.tokens.any (fun u => u.tokenHash == newHash) then (.error .serverError, s)
  else
    (.ok ⟨⟨clientId, userId, scope, now + accessTtl⟩, genBearer, accessTtl⟩,
      { s with tokens :=
          ⟨genId, newHash, clientId, userId, scope, now + refreshTtl, none⟩ :: s.tokens })

/-- A refresh token is valid when its revoked-at timestamp is unset and the
current time is strictly before its expiry (spec section 3, RefreshToken
invariant). -/
def tokenValid (now : Nat) (t : RefreshToken) : Bool :=
  t.revokedAt.isNone && decide (now < t.expiresAt)

/-- Revocation of the matched record inside Rotate: the store row whose id is
`i` gets its revoked-at timestamp set to `now`; all other rows are kept as
they are. -/
def revokeTokens (tokens : List RefreshToken) (i : String) (now : Nat) :
    List RefreshToken :=
  tokens.map (fun u => if u.id == i then { u with revokedAt := some now } else u)

/-- Result of a successful refresh-token rotation (spec section 4.5). -/
structure RotateResult where
  userId : String
  scope : String
  tokens : GrantTokens
deriving DecidableEq, Repr

/-- Modelled from the spec: RefreshTokenManager.Rotate (spec section 4.5,
implementation absent from src).  Candidate records of the presented client
are matched by constant-time hash verification of the bearer value; a missing,
revoked or expired record is `invalidGrant`; on success the matched record is
revoked and a new token pair is issued via `issueGrant`, preserving client,
user and scope.  The `refresh_tokens` schema in src (the authority for the
data model) stores no lineage identifier, so presenting an already-revoked
bearer can only be rejected: no revocation of other generations is
expressible over that schema. -/
def rotate (hashFn : String → String) (genId genBearer : String) (s : Store)
    (now : Nat) (bearer clientId : String) :
    Except OAuthError RotateResult × Store :=
  match s.tokens.find?
      (fun t => t.clientId == clientId && verifySecret hashFn bearer t.tokenHash) with
  | none => (.error .invalidGrant, s)
  | some t =>
    if tokenValid now t then
      let s1 := { s with tokens := revokeTokens s.tokens t.id now }
      match issueGrant hashFn genId genBearer s1 now t.clientId t.userId t.scope with
      | (.ok g, s2) => (.ok ⟨t.userId, t.scope, g⟩, s2)
      | (.error e, _) => (.error e, s)
    else (.error .invalidGrant, s)

/-- One request to the token endpoint (spec section 6, POST /oauth/token). -/
structure TokenRequest where
  grantType : String
  clientId : String
  clientSecret : String
  code : Option String
  redirectUri : Option String
  codeVerifier : Option String
  refreshToken : Option String
deriving DecidableEq, Repr

/-- Success body of the token endpoint (spec section 6). -/
structure TokenResponse where
  accessToken : AccessToken
  tokenType : String
  expiresIn : Nat
  refreshToken : String
  scope : String
deriving DecidableEq, Repr

/-- Modelled from the spec: client authentication of the GrantValidator (spec
sections 4.6 and 7, implementation absent from src): the client record is
looked up by id and accepted only when it is active and the presented secret
verifies against the stored hash; a missing, inactive or mismatching client
fails closed. -/
def authenticateClient (hashFn : String → String) (s : Store)
    (clientId clientSecret : String) : Option OAuthClient :=
  match s.clients.find? (fun c => c.id == clientId) with
  | none => none
  | some c =>
      if c.isActive && verifySecret hashFn clientSecret c.secretHash then some c
      else none

/-- Modelled from the spec: GrantValidator over one token request (spec
section 4.6, implementation absent from src).  Client authentication runs
first and any failure there short-circuits with `invalidClient` before any
code or token state is touched; then the request dispatches on grant type to
Redeem plus IssueGrant, or to Rotate. -/
def tokenEndpoint (hashFn : String → String) (sha256 : String → List Nat)
    (genId genBearer : String) (s : Store) (now : Nat) (req : TokenRequest) :
    Except OAuthError TokenResponse × Store :=
  match authenticateClient hashFn s req.clientId req.clientSecret with
  | none => (.error .invalidClient, s)
  | some c =>
    if req.grantType == "authorization_code" then
      match redeem sha256 s now (req.code.getD "") c.id (req.redirectUri.getD "")
          req.codeVerifier with
      | (.ok r, s1) =>
        match issueGrant hashFn genId genBearer s1 now c.id r.userId r.scope with
        | (.ok g, s2) =>
            (.ok ⟨g.accessToken, "Bearer", g.expiresIn, g.refreshToken, r.scope⟩, s2)
        | (.error e, s1) => (.error e, s1)
      | (.error e, s1) => (.error e, s1)
    else if req.grantType == "refresh_token" then
      match rotate hashFn genId genBearer s now (req.refreshToken.getD "") c.id with
      | (.ok rr, s2) =>
          (.ok ⟨rr.tokens.accessToken, "Bearer", rr.tokens.expiresIn,
            rr.tokens.refreshToken, rr.scope⟩, s2)
      | (.error e, s2) => (.error e, s2)
    else (.error .invalidGrant, s)

/-- The result of the platform URL constructor (new URL) as far as
`validateUrl` inspects it: its pathname. -/
structure ParsedURL where
  pathname : String
deriving DecidableEq, Repr

/-- Whether the first character list is an initial segment of the second. -/
def charsStart : List Char → List Char → Bool
  | [], _ => true
  | _ :: _, [] => false
  | a :: as, b :: bs => a == b && charsStart as bs

/-- The startsWith test of JavaScript strings: character-wise initial-segment
comparison. -/
def strStarts (pre s : String) : Bool :=
  charsStart pre.toList s.toList

/-- Tail test after the optional port of the localhost pattern: end of input,
a slash, or digits followed by either. -/
def portTail : List Char → Bool
  | [] => true
  | c :: cs => if c = '/' then true else c.isDigit && portTail cs

/-- Tail test directly after `http://localhost`: end of input, a slash, or a
colon followed by one or more digits and then end of input or a slash. -/
def localhostTail : List Char → Bool
  | [] => true
  | c :: cs =>
    if c = '/' then true
    else if c = ':' then
      match cs with
      | [] => false
      | d :: ds => d.isDigit && portTail ds
    else false

/-- The regular expression of validateUrl
([id].vue line 59): caret, http colon slash slash localhost, an optional colon
plus digits group, then end of input or a slash. -/
def localhostPattern (url : String) : Bool :=
  strStarts "http://localhost" url &&
    localhostTail (url.toList.drop ("http://localhost".toList.length))

/-- Embedding of `validateUrl` from
src/app/pages/dashboard/clients/[id].vue lines 50-62.  The platform URL
constructor is a parameter; `parse url = none` models the constructor
throwing, which the source catches and turns into the format error message.
The scheme check runs only after a successful parse whose pathname is `/` or
empty, exactly as in the source, and the function returns `none` (undefined)
on acceptance. -/
def validateUrl (parse : String → Option ParsedURL) (url label : String) :
    Option String :=
  match parse url with
  | some parsed =>
    if parsed.pathname != "/" && parsed.pathname != "" then
      some (label ++ " should not include a path")
    else if !(strStarts "https://" url) && !(localhostPattern url) then
      some "Must use HTTPS (http://localhost allowed for development)"
    else none
  | none => some "Invalid URL format"

/-- Whether a token-engine result is a success. -/
def succeeded {α : Type} : Except OAuthError α → Bool
  | .ok _ => true
  | .error _ => false

/-- The stored token hashes of all persisted refresh tokens, in store order. -/
def tokenHashes (s : Store) : List String :=
  s.tokens.map (fun t => t.tokenHash)

/-- Concrete stand-in for the one-way hash function, used to evaluate the
model on concrete inputs. -/
def demoHash (s : String) : String := String.append "hash:" s

/-- Concrete stand-in for the SHA-256 digest function, used to evaluate the
model on concrete inputs. -/
def demoSha (s : String) : List Nat := s.toList.map Char.toNat

/-- Concrete store holding one live refresh token whose bearer value is
`b1`. -/
def demoStore0 : Store :=
  ⟨[], [], [⟨"t1", demoHash "b1", "c", "u", "profile", 1000, none⟩]⟩

/-- `demoStore0` after rotating bearer `b1` into bearer `b2`. -/
def demoStore1 : Store := (rotate demoHash "t2" "b2" demoStore0 10 "b1" "c").snd

/-- `demoStore1` after the rejected replay of the revoked bearer `b1`. -/
def demoStore2 : Store := (rotate demoHash "t3" "b3" demoStore1 20 "b1" "c").snd

/-- Concrete store holding one pending authorization code without PKCE. -/
def wCodeStore : Store :=
  ⟨[], [⟨"code1", "c", "u", "https://app.example.com", "profile", none, none, 100⟩], []⟩

/-- The S256 challenge over verifier `verifier123` under `demoSha`. -/
def wChallenge : String := String.mk (base64urlNoPad (demoSha "verifier123"))

/-- Concrete store holding one pending authorization code carrying an S256
PKCE challenge over verifier `verifier123`. -/
def wPkceStore : Store :=
  ⟨[], [⟨"code2", "c", "u", "https://app.example.com", "profile", some wChallenge,
    some "S256", 100⟩], []⟩

/-- Concrete URL parser stand-in that reports a root pathname for every
input. -/
def wParse : String → Option ParsedURL := fun _ => some ⟨"/"⟩

/-- Concrete store holding one deactivated client. -/
def wAuthStore : Store :=
  ⟨[⟨"c", demoHash "secret", "App", "[]", "https://app.example.com", none, none, 0,
    false⟩], [], []⟩

/-- Concrete token request presenting the deactivated client of
`wAuthStore`. -/
def wAuthReq : TokenRequest :=
  ⟨"authorization_code", "c", "secret", some "code1", some "https://app.example.com",
    none, none⟩

theorem find?_code_filter (l : List AuthorizationCode) (c : String) :
    (l.filter (fun q => q.code != c)).find? (fun q => q.code == c) = none := by
  rw [List.find?_eq_none]
  intro x hx
  have h2 := (List.mem_filter.mp hx).2
  simp only [bne_iff_ne, ne_eq] at h2
  simpa using h2

theorem ctScan_nil_left (bs : List Char) (acc : Nat) :
    ctScan [] bs acc = acc + bs.length := by
  rw [ctScan]

theorem ctScan_nil_right (as : List Char) (acc : Nat) :
    ctScan as [] acc = acc + as.length := by
  induction as generalizing acc with
  | nil => simp [ctScan]
  | cons a as ih => rw [ctScan, ih]; simp; omega

theorem ctScan_add (as : List Char) : ∀ (bs : List Char) (acc : Nat),
    ctScan as bs acc = acc + ctScan as bs 0 := by
  induction as with
  | nil => intro bs acc; rw [ctScan_nil_left, ctScan_nil_left]; omega
  | cons a as ih =>
    intro bs acc
    cases bs with
    | nil => rw [ctScan_nil_right, ctScan_nil_right]; omega
    | cons b bs => rw [ctScan, ctScan, ih bs, ih bs (0 + _)]; omega

theorem ctScan_zero_iff (as : List Char) : ∀ bs : List Char,
    (ctScan as bs 0 = 0 ↔ as = bs) := by
  induction as with
  | nil =>
    intro bs
    cases bs with
    | nil => simp [ctScan]
    | cons b bs => simp [ctScan]
  | cons a as ih =>
    intro bs
    cases bs with
    | nil => rw [ctScan, ctScan_nil_right]; simp
    | cons b bs =>
      rw [ctScan]
      by_cases hab : a = b
      · simp only [hab, if_pos rfl]
        rw [Nat.zero_add]
        simp [ih bs]
      · rw [if_neg hab, ctScan_add]
        constructor
        · intro hh; omega
        · intro hh; cases hh; exact absurd rfl hab

theorem ctEq_iff (a b : String) : ctEq a b = true ↔ a = b := by
  rw [ctEq, beq_iff_eq, ctScan_zero_iff]
  constructor
  · intro hh
    cases a; cases b
    simp only [String.toList] at hh
    rw [hh]
  · intro hh; rw [hh]

theorem ctScanSteps_nil_left (bs : List Char) : ctScanSteps [] bs = bs.length := by
  rw [ctScanSteps]

theorem ctScanSteps_nil_right (as : List Char) : ctScanSteps as [] = as.length := by
  induction as with
  | nil => simp [ctScanSteps]
  | cons a as ih => rw [ctScanSteps, ih, List.length_cons]; omega

theorem ctScanSteps_eq_max (as : List Char) : ∀ bs : List Char,
    ctScanSteps as bs = max as.length bs.length := by
  induction as with
  | nil => intro bs; rw [ctScanSteps_nil_left]; simp
  | cons a as ih =>
    intro bs
    cases bs with
    | nil => rw [ctScanSteps_nil_right]; simp
    | cons b bs =>
      rw [ctScanSteps, ih bs]
      simp only [List.length_cons]
      omega

theorem redeem_absent (sha256 : String → List Nat) (s : Store) (now : Nat)
    (c clientId redirectUri : String) (verifier : Option String)
    (h : s.codes.find? (fun q => q.code == c) = none) :
    redeem sha256 s now c clientId redirectUri verifier = (.error .invalidGrant, s) := by
  unfold redeem; rw [h]

theorem redeem_found (sha256 : String → List Nat) (s : Store) (now : Nat)
    (r : AuthorizationCode) (clientId redirectUri : String) (verifier : Option String)
    (hfind : s.codes.find? (fun q => q.code == r.code) = some r) :
    redeem sha256 s now r.code clientId redirectUri verifier =
      (redeemCheck sha256 now r clientId redirectUri verifier,
        { s with codes := s.codes.filter (fun q => q.code != r.code) }) := by
  unfold redeem; rw [hfind]

theorem redeemCheck_self (sha256 : String → List Nat) (now : Nat)
    (r : AuthorizationCode) (verifier : Option String) :
    redeemCheck sha256 now r r.clientId r.redirectUri verifier =
      if pkceOk sha256 r.codeChallenge r.codeChallengeMethod verifier then
        (if now < r.expiresAt then .ok ⟨r.userId, r.scope⟩ else .error .invalidGrant)
      else .error .invalidGrant := by
  cases hb : pkceOk sha256 r.codeChallenge r.codeChallengeMethod verifier <;>
    simp [redeemCheck, hb]

theorem redeem_self_fst (sha256 : String → List Nat) (s : Store) (now : Nat)
    (r : AuthorizationCode) (verifier : Option String)
    (hfind : s.codes.find? (fun q => q.code == r.code) = some r) :
    (redeem sha256 s now r.code r.clientId r.redirectUri verifier).fst =
      if pkceOk sha256 r.codeChallenge r.codeChallengeMethod verifier then
        (if now < r.expiresAt then .ok ⟨r.userId, r.scope⟩ else .error .invalidGrant)
      else .error .invalidGrant := by
  rw [redeem_found sha256 s now r r.clientId r.redirectUri verifier hfind]
  exact redeemCheck_self sha256 now r verifier

/-- C1: an authorization code is redeemable at most once.  After a successful
Redeem of a code value, no stored record carries that value any more (the
record is consumed as part of the atomic fetch-and-delete, hence before the
call returns), and any subsequent Redeem with the same code value — with any
client id, redirect URI, verifier and time — fails with invalid_grant and
leaves the set of stored codes unchanged, so every later attempt keeps
failing.  Because the fetch-and-delete is atomic, two concurrent redemptions
serialize, and this theorem applies to whichever runs second: at most one of
them succeeds. -/
theorem authorization_code_single_use (sha256 : String → List Nat) (s : Store)
    (now : Nat) (c clientId redirectUri : String) (verifier : Option String)
    (r : RedeemResult) (s1 : Store)
    (h : redeem sha256 s now c clientId redirectUri verifier = (.ok r, s1)) :
    (∀ q ∈ s1.codes, q.code ≠ c) ∧
      ∀ (now2 : Nat) (cid2 uri2 : String) (ver2 : Option String),
        (redeem sha256 s1 now2 c cid2 uri2 ver2).fst = .error .invalidGrant ∧
          (redeem sha256 s1 now2 c cid2 uri2 ver2).snd = s1 := by
  unfold redeem at h
  cases hf : s.codes.find? (fun q => q.code == c) with
  | none => rw [hf] at h; simp at h
  | some r0 =>
    rw [hf] at h
    have hs1 : s1 = { s with codes := s.codes.filter (fun q => q.code != c) } :=
      (congrArg Prod.snd h).symm
    constructor
    · intro q hq
      rw [hs1] at hq
      have h2 := (List.mem_filter.mp hq).2
      simpa [bne_iff_ne] using h2
    · intro now2 cid2 uri2 ver2
      have hn : (s.codes.filter (fun q => q.code != c)).find?
          (fun q => q.code == c) = none := find?_code_filter s.codes c
      rw [hs1, redeem_absent sha256 _ now2 c cid2 uri2 ver2 hn]
      exact ⟨rfl, rfl⟩

theorem authorization_code_single_use_witness :
    (redeem demoSha
      (redeem demoSha wCodeStore 0 "code1" "c" "https://app.example.com" none).snd
      5 "code1" "c" "https://app.example.com" none).fst =
        Except.error OAuthError.invalidGrant :=
  ((authorization_code_single_use demoSha wCodeStore 0 "code1" "c"
      "https://app.example.com" none ⟨"u", "profile"⟩
      ((redeem demoSha wCodeStore 0 "code1" "c" "https://app.example.com" none).snd)
      rfl).2 5 "c" "https://app.example.com" none).1

/-- C6: a stored (never consumed) authorization code whose expiry timestamp is
not strictly in the future at redemption time fails with invalid_grant, for
any presented client, redirect URI and verifier; the expiry is re-checked on
the fetched record itself, so no reaping of expired rows is needed for this to
hold. -/
theorem redeem_expired_rejected (sha256 : String → List Nat) (s : Store)
    (now : Nat) (r : AuthorizationCode) (clientId redirectUri : String)
    (verifier : Option String)
    (hfind : s.codes.find? (fun q => q.code == r.code) = some r)
    (hexp : r.expiresAt ≤ now) :
    (redeem sha256 s now r.code clientId redirectUri verifier).fst =
      .error .invalidGrant := by
  rw [redeem_found sha256 s now r clientId redirectUri verifier hfind]
  show redeemCheck sha256 now r clientId redirectUri verifier = .error .invalidGrant
  unfold redeemCheck
  split
  · rfl
  · split
    · rfl
    · split
      · rfl
      · split
        · rename_i hlt
          exact absurd hlt (by omega)
        · rfl

theorem redeem_expired_rejected_witness :
    (redeem demoSha wCodeStore 100 "code1" "c" "https://app.example.com" none).fst =
      Except.error OAuthError.invalidGrant :=
  redeem_expired_rejected demoSha wCodeStore 100
    ⟨"code1", "c", "u", "https://app.example.com", "profile", none, none, 100⟩
    "c" "https://app.example.com" none rfl (by decide)

/-- C4: with the matching client id presented, a stored, unexpired code whose
PKCE check passes is redeemed successfully exactly when the presented redirect
URI equals the one stored at issuance; any other redirect URI fails with
invalid_grant. -/
theorem redeem_redirect_uri_exact (sha256 : String → List Nat) (s : Store)
    (now : Nat) (r : AuthorizationCode) (uri : String) (verifier : Option String)
    (hfind : s.codes.find? (fun q => q.code == r.code) = some r)
    (hpkce : pkceOk sha256 r.codeChallenge r.codeChallengeMethod verifier = true)
    (hexp : now < r.expiresAt) :
    (succeeded (redeem sha256 s now r.code r.clientId uri verifier).fst = true ↔
        uri = r.redirectUri) ∧
      (uri ≠ r.redirectUri →
        (redeem sha256 s now r.code r.clientId uri verifier).fst =
          .error .invalidGrant) := by
  by_cases huri : uri = r.redirectUri
  · subst huri
    constructor
    · rw [redeem_self_fst sha256 s now r verifier hfind]
      simp [hpkce, hexp, succeeded]
    · intro hne; exact absurd rfl hne
  · have h2 : (r.redirectUri != uri) = true := by
      simp only [bne_iff_ne, ne_eq]
      exact fun hh => huri hh.symm
    constructor
    · rw [redeem_found sha256 s now r r.clientId uri verifier hfind]
      show succeeded (redeemCheck sha256 now r r.clientId uri verifier) = true ↔ _
      simp [redeemCheck, h2, succeeded, huri]
    · intro _
      rw [redeem_found sha256 s now r r.clientId uri verifier hfind]
      show redeemCheck sha256 now r r.clientId uri verifier = .error .invalidGrant
      simp [redeemCheck, h2]

theorem redeem_redirect_uri_exact_witness :
    (redeem demoSha wCodeStore 0 "code1" "c" "https://evil.example.com" none).fst =
      Except.error OAuthError.invalidGrant :=
  (redeem_redirect_uri_exact demoSha wCodeStore 0
    ⟨"code1", "c", "u", "https://app.example.com", "profile", none, none, 100⟩
    "https://evil.example.com" none rfl rfl (by decide)).2 (by decide)

/-- C3: PKCE enforcement at redemption, with client, redirect URI and expiry
checks passing.  A stored challenge makes the outcome exactly the PKCE
decision: a missing verifier fails with invalid_grant; a supplied verifier
succeeds precisely when recomputing the challenge from it with the stored
method equals the stored challenge, and fails with invalid_grant otherwise.
With no stored challenge, redemption succeeds whatever verifier is supplied
(the verifier is ignored, not an error). -/
theorem redeem_pkce_verification (sha256 : String → List Nat) (s : Store)
    (now : Nat) (r : AuthorizationCode) (verifier : Option String)
    (hfind : s.codes.find? (fun q => q.code == r.code) = some r)
    (hexp : now < r.expiresAt) :
    (succeeded (redeem sha256 s now r.code r.clientId r.redirectUri verifier).fst = true ↔
        pkceOk sha256 r.codeChallenge r.codeChallengeMethod verifier = true) ∧
      (∀ ch, r.codeChallenge = some ch →
        (verifier = none →
          (redeem sha256 s now r.code r.clientId r.redirectUri verifier).fst =
            .error .invalidGrant) ∧
        ∀ v, verifier = some v →
          ((redeem sha256 s now r.code r.clientId r.redirectUri verifier).fst =
              .ok ⟨r.userId, r.scope⟩ ↔
            computeChallenge sha256 r.codeChallengeMethod v = ch) ∧
          (computeChallenge sha256 r.codeChallengeMethod v ≠ ch →
            (redeem sha256 s now r.code r.clientId r.redirectUri verifier).fst =
              .error .invalidGrant)) ∧
      (r.codeChallenge = none →
        (redeem sha256 s now r.code r.clientId r.redirectUri verifier).fst =
          .ok ⟨r.userId, r.scope⟩) := by
  rw [redeem_self_fst sha256 s now r verifier hfind]
  refine ⟨?_, ?_, ?_⟩
  · cases hb : pkceOk sha256 r.codeChallenge r.codeChallengeMethod verifier <;>
      simp [hb, hexp, succeeded]
  · intro ch hch
    constructor
    · intro hv
      subst hv
      simp [pkceOk, hch]
    · intro v hv
      subst hv
      have hpk : pkceOk sha256 r.codeChallenge r.codeChallengeMethod (some v) =
          (computeChallenge sha256 r.codeChallengeMethod v == ch) := by
        simp [pkceOk, hch]
      by_cases hcc : computeChallenge sha256 r.codeChallengeMethod v = ch
      · constructor
        · simp [hpk, hcc, hexp]
        · intro hne; exact absurd hcc hne
      · constructor
        · simp [hpk, hcc, hexp]
        · intro _; simp [hpk, hcc]
  · intro hch
    simp [pkceOk, hch, hexp]

theorem redeem_pkce_verification_witness :
    (redeem demoSha wPkceStore 0 "code2" "c" "https://app.example.com"
        (some "verifier123")).fst = Except.ok ⟨"u", "profile"⟩ :=
  (((redeem_pkce_verification demoSha wPkceStore 0
      ⟨"code2", "c", "u", "https://app.example.com", "profile", some wChallenge,
        some "S256", 100⟩
      (some "verifier123") rfl (by decide)).2.1 wChallenge rfl).2
    "verifier123" rfl).1.mpr rfl

theorem tokenValid_iff (now : Nat) (t : RefreshToken) :
    tokenValid now t = true ↔ t.revokedAt = none ∧ now < t.expiresAt := by
  simp [tokenValid, Option.isNone_iff_eq_none]

theorem revoke_map_hashes (s : Store) (i : String) (now : Nat) :
    (revokeTokens s.tokens i now).map (fun t => t.tokenHash) = tokenHashes s := by
  unfold revokeTokens tokenHashes
  rw [List.map_map]
  congr 1
  funext u
  by_cases hid : (u.id == i) = true <;> simp [Function.comp, hid]

theorem any_hash_revoke_map (s : Store) (i : String) (now : Nat) (hsh : String) :
    (revokeTokens s.tokens i now).any (fun u => u.tokenHash == hsh) =
      s.tokens.any (fun u => u.tokenHash == hsh) := by
  unfold revokeTokens
  rw [List.any_map]
  congr 1
  funext u
  by_cases hid : (u.id == i) = true <;> simp [Function.comp, hid]

theorem issueGrant_fresh (hashFn : String → String) (genId genBearer : String)
    (s : Store) (now : Nat) (clientId userId scope : String)
    (hfresh : s.tokens.any (fun u => u.tokenHash == hashFn genBearer) = false) :
    issueGrant hashFn genId genBearer s now clientId userId scope =
      (.ok ⟨⟨clientId, userId, scope, now + accessTtl⟩, genBearer, accessTtl⟩,
        { s with tokens :=
            ⟨genId, hashFn genBearer, clientId, userId, scope, now + refreshTtl,
              none⟩ :: s.tokens }) := by
  simp [issueGrant, hfresh]

theorem issueGrant_nodup (hashFn : String → String) (genId genBearer : String)
    (s : Store) (now : Nat) (clientId userId scope : String)
    (hnd : (tokenHashes s).Nodup) :
    (tokenHashes (issueGrant hashFn genId genBearer s now clientId userId scope).snd).Nodup := by
  cases hA : s.tokens.any (fun u => u.tokenHash == hashFn genBearer) with
  | true =>
    have : (issueGrant hashFn genId genBearer s now clientId userId scope).snd = s := by
      simp [issueGrant, hA]
    rw [this]; exact hnd
  | false =>
    rw [issueGrant_fresh hashFn genId genBearer s now clientId userId scope hA]
    have hnm : hashFn genBearer ∉ tokenHashes s := by
      intro hmem
      obtain ⟨t, htmem, hth⟩ := List.mem_map.mp hmem
      have hfa := List.any_eq_false.mp hA t htmem
      rw [hth] at hfa
      simp at hfa
    show (hashFn genBearer :: tokenHashes s).Nodup
    exact List.nodup_cons.mpr ⟨hnm, hnd⟩

theorem rotate_found (hashFn : String → String) (genId genBearer : String)
    (s : Store) (now : Nat) (bearer clientId : String) (t : RefreshToken)
    (hfind : s.tokens.find?
        (fun t => t.clientId == clientId && verifySecret hashFn bearer t.tokenHash) =
      some t) :
    rotate hashFn genId genBearer s now bearer clientId =
      if tokenValid now t then
        match issueGrant hashFn genId genBearer
            { s with tokens := revokeTokens s.tokens t.id now }
            now t.clientId t.userId t.scope with
        | (.ok g, s2) => (.ok ⟨t.userId, t.scope, g⟩, s2)
        | (.error e, _) => (.error e, s)
      else (.error .invalidGrant, s) := by
  unfold rotate
  rw [hfind]

theorem rotate_nodup (hashFn : String → String) (genId genBearer : String)
    (s : Store) (now : Nat) (bearer clientId : String)
    (hnd : (tokenHashes s).Nodup) :
    (tokenHashes (rotate hashFn genId genBearer s now bearer clientId).snd).Nodup := by
  cases hf : s.tokens.find?
      (fun t => t.clientId == clientId && verifySecret hashFn bearer t.tokenHash) with
  | none =>
    have : rotate hashFn genId genBearer s now bearer clientId =
        (.error .invalidGrant, s) := by
      unfold rotate; rw [hf]
    rw [this]; exact hnd
  | some t =>
    rw [rotate_found hashFn genId genBearer s now bearer clientId t hf]
    cases hv : tokenValid now t with
    | false => simpa using hnd
    | true =>
      have hnd1 :
          (tokenHashes { s with tokens := revokeTokens s.tokens t.id now }).Nodup := by
        show ((revokeTokens s.tokens t.id now).map (fun t => t.tokenHash)).Nodup
        rw [revoke_map_hashes s t.id now]; exact hnd
      cases hI : issueGrant hashFn genId genBearer
          { s with tokens := revokeTokens s.tokens t.id now }
          now t.clientId t.userId t.scope with
      | mk res s2 =>
        have hnd2 := issueGrant_nodup hashFn genId genBearer
          { s with tokens := revokeTokens s.tokens t.id now }
          now t.clientId t.userId t.scope hnd1
        rw [hI] at hnd2
        cases res with
        | ok g => simpa using hnd2
        | error e => simpa using hnd

/-- C5: validity criterion of refresh-token rotation.  When a persisted
record matches the presented client and bearer hash, Rotate accepts it
exactly when its revoked-at timestamp is unset and the current time is
strictly below its expiry, and fails with invalid_grant when the matched
record is revoked or expired; when no record matches the presented client and
bearer, Rotate fails with invalid_grant.  (The freshness hypothesis says the
newly generated bearer's hash is not already stored, i.e. the store's unique
index does not abort the insert.) -/
theorem rotate_validity (hashFn : String → String) (genId genBearer : String)
    (s : Store) (now : Nat) (bearer clientId : String)
    (hfresh : s.tokens.any (fun u => u.tokenHash == hashFn genBearer) = false) :
    (∀ t, s.tokens.find?
        (fun t => t.clientId == clientId && verifySecret hashFn bearer t.tokenHash) =
          some t →
      ((succeeded (rotate hashFn genId genBearer s now bearer clientId).fst = true ↔
          t.revokedAt = none ∧ now < t.expiresAt) ∧
        (t.revokedAt ≠ none ∨ t.expiresAt ≤ now →
          (rotate hashFn genId genBearer s now bearer clientId).fst =
            .error .invalidGrant))) ∧
      (s.tokens.find?
          (fun t => t.clientId == clientId && verifySecret hashFn bearer t.tokenHash) =
            none →
        (rotate hashFn genId genBearer s now bearer clientId).fst =
          .error .invalidGrant) := by
  constructor
  · intro t hfind
    rw [rotate_found hashFn genId genBearer s now bearer clientId t hfind]
    cases hv : tokenValid now t with
    | false =>
      have hnv : ¬(t.revokedAt = none ∧ now < t.expiresAt) := by
        rw [← tokenValid_iff]; simp [hv]
      constructor
      · simp [succeeded, hnv]
      · intro _; rfl
    | true =>
      have hval := (tokenValid_iff now t).mp hv
      have hA : ({ s with tokens := revokeTokens s.tokens t.id now } :
            Store).tokens.any (fun u => u.tokenHash == hashFn genBearer) = false := by
        show (revokeTokens s.tokens t.id now).any
          (fun u => u.tokenHash == hashFn genBearer) = false
        rw [any_hash_revoke_map s t.id now (hashFn genBearer)]; exact hfresh
      rw [issueGrant_fresh hashFn genId genBearer _ now t.clientId t.userId t.scope hA]
      constructor
      · simp [succeeded, hval]
      · intro hbad
        exfalso
        rcases hbad with hb | hb
        · exact hb hval.1
        · omega
  · intro hnone
    unfold rotate
    rw [hnone]

theorem rotate_validity_witness :
    succeeded (rotate demoHash "t2" "b2" demoStore0 10 "b1" "c").fst = true :=
  (((rotate_validity demoHash "t2" "b2" demoStore0 10 "b1" "c" (by decide)).1
    ⟨"t1", demoHash "b1", "c", "u", "profile", 1000, none⟩ (by decide)).1).mpr
    ⟨rfl, by decide⟩

/-- C2 counterexample scenario: over the schema of the migration (which has no
lineage column), rotating bearer b1 into bearer b2 and then replaying the
revoked b1 is rejected with invalid_grant but does not invalidate b2: the
subsequent rotation of b2 still succeeds, contradicting the claimed lineage
revocation. -/
theorem refresh_reuse_leaves_successor_valid :
    (rotate demoHash "t2" "b2" demoStore0 10 "b1" "c").fst =
        Except.ok ⟨"u", "profile", ⟨⟨"c", "u", "profile", 3610⟩, "b2", 3600⟩⟩ ∧
      (rotate demoHash "t3" "b3" demoStore1 20 "b1" "c").fst =
        Except.error OAuthError.invalidGrant ∧
      succeeded (rotate demoHash "t4" "b4" demoStore2 30 "b2" "c").fst = true :=
  ⟨rfl, rfl, rfl⟩

/-- C9: the unique index on the token_hash column, as the store invariant
that no two persisted refresh tokens share a token hash.  Under it, records
are identified by their token hash (a presented bearer's hash matches at most
one record), and both operations that insert a refresh token — IssueGrant and
Rotate — preserve the invariant. -/
theorem refresh_token_hash_unique (hashFn : String → String)
    (genId genBearer : String) (s : Store) (now : Nat)
    (bearer clientId userId scope : String)
    (hnd : (tokenHashes s).Nodup) :
    (∀ t1 ∈ s.tokens, ∀ t2 ∈ s.tokens, t1.tokenHash = t2.tokenHash → t1 = t2) ∧
      (tokenHashes
        (issueGrant hashFn genId genBearer s now clientId userId scope).snd).Nodup ∧
      (tokenHashes (rotate hashFn genId genBearer s now bearer clientId).snd).Nodup :=
  ⟨fun _ h1 _ h2 heq => List.inj_on_of_nodup_map hnd h1 h2 heq,
    issueGrant_nodup hashFn genId genBearer s now clientId userId scope hnd,
    rotate_nodup hashFn genId genBearer s now bearer clientId hnd⟩

theorem refresh_token_hash_unique_witness :
    (tokenHashes (rotate demoHash "t2" "b2" demoStore0 10 "b1" "c").snd).Nodup :=
  (refresh_token_hash_unique demoHash "t2" "b2" demoStore0 10 "b1" "c" "u" "profile"
    (by decide)).2.2

/-- C7: client authentication failure short-circuits the token endpoint.  If
the presented client id is not found, or the found client is inactive, or the
presented secret does not verify against the stored hash, then the request
fails with invalid_client and the returned store is exactly the input store:
no authorization-code or refresh-token state is modified, and no
grant-specific check runs. -/
theorem token_endpoint_client_auth_first (hashFn : String → String)
    (sha256 : String → List Nat) (genId genBearer : String) (s : Store)
    (now : Nat) (req : TokenRequest)
    (h : s.clients.find? (fun c => c.id == req.clientId) = none ∨
      ∃ c, s.clients.find? (fun c => c.id == req.clientId) = some c ∧
        (c.isActive = false ∨
          verifySecret hashFn req.clientSecret c.secretHash = false)) :
    tokenEndpoint hashFn sha256 genId genBearer s now req =
      (.error .invalidClient, s) := by
  have hauth : authenticateClient hashFn s req.clientId req.clientSecret = none := by
    unfold authenticateClient
    rcases h with h | ⟨c, hc, hbad⟩
    · rw [h]
    · rw [hc]
      rcases hbad with hb | hb <;> simp [hb]
  unfold tokenEndpoint
  rw [hauth]

theorem token_endpoint_client_auth_first_witness :
    tokenEndpoint demoHash demoSha "t9" "b9" wAuthStore 0 wAuthReq =
      (Except.error OAuthError.invalidClient, wAuthStore) :=
  token_endpoint_client_auth_first demoHash demoSha "t9" "b9" wAuthStore 0 wAuthReq
    (Or.inr ⟨⟨"c", demoHash "secret", "App", "[]", "https://app.example.com", none,
      none, 0, false⟩, rfl, Or.inl rfl⟩)

/-- C8: the SecretHasher verification contract.  For any hash function,
verify accepts exactly when the recomputed hash of the presented secret equals
the stored value (so for malformed stored input it returns false, and being a
total function it never raises); when the hash function is injective, verify
accepts a secret against a stored hash produced by hash exactly when it is the
original secret; and the comparison's cost — the number of loop iterations of
the scan — is determined by the lengths of the two compared strings alone,
independent of their contents and hence of the position of the first
mismatched byte. -/
theorem secret_hasher_contract (hashFn : String → String)
    (hinj : Function.Injective hashFn) :
    (∀ secret stored, verifySecret hashFn secret stored = true ↔
        hashFn secret = stored) ∧
      (∀ secret original,
        verifySecret hashFn secret (hashFn original) = true ↔ secret = original) ∧
      (∀ a b a2 b2 : String, a.length = a2.length → b.length = b2.length →
        ctScanSteps a.toList b.toList = ctScanSteps a2.toList b2.toList) := by
  refine ⟨?_, ?_, ?_⟩
  · intro secret stored
    exact ctEq_iff (hashFn secret) stored
  · intro secret original
    rw [verifySecret, ctEq_iff]
    exact ⟨fun hh => hinj hh, fun hh => hh ▸ rfl⟩
  · intro a b a2 b2 ha hb
    rw [ctScanSteps_eq_max, ctScanSteps_eq_max]
    have e1 : a.toList.length = a2.toList.length := ha
    have e2 : b.toList.length = b2.toList.length := hb
    rw [e1, e2]

theorem secret_hasher_contract_witness :
    Function.Injective (fun x : String => x) ∧
      verifySecret (fun x : String => x) "s3cret" "s3cret" = true :=
  ⟨fun _ _ hh => hh,
    ((secret_hasher_contract (fun x : String => x) (fun _ _ hh => hh)).2.1
      "s3cret" "s3cret").mpr rfl⟩

/-- C10: characterization of the dashboard's validateUrl.  It returns none
(accepts) exactly for inputs that the URL constructor parses with pathname `/`
or empty and that either start with the characters `https://` or match the
localhost pattern (http, localhost host, optional numeric port); every input
that fails to parse gets the format error message; being a total function into
an option of messages, it never throws. -/
theorem validateUrl_characterization (parse : String → Option ParsedURL)
    (url label : String) :
    (validateUrl parse url label = none ↔
      ∃ p, parse url = some p ∧ (p.pathname = "/" ∨ p.pathname = "") ∧
        (strStarts "https://" url = true ∨ localhostPattern url = true)) ∧
      (parse url = none →
        validateUrl parse url label = some "Invalid URL format") := by
  constructor
  · unfold validateUrl
    cases hp : parse url with
    | none => simp
    | some p =>
      dsimp only
      by_cases h1 : (p.pathname != "/" && p.pathname != "") = true
      · rw [if_pos h1]
        simp only [Bool.and_eq_true, bne_iff_ne, ne_eq] at h1
        constructor
        · intro hcon; exact absurd hcon (by simp)
        · rintro ⟨p2, hpe, hpath, -⟩
          cases hpe
          rcases hpath with hpp | hpp
          · exact absurd hpp h1.1
          · exact absurd hpp h1.2
      · rw [if_neg h1]
        simp only [Bool.and_eq_true, bne_iff_ne, ne_eq, not_and_or, not_not] at h1
        by_cases h2 : (!(strStarts "https://" url) && !(localhostPattern url)) = true
        · rw [if_pos h2]
          simp only [Bool.and_eq_true, Bool.not_eq_true'] at h2
          constructor
          · intro hcon; exact absurd hcon (by simp)
          · rintro ⟨p2, hpe, -, hsch⟩
            cases hpe
            rcases hsch with hs | hs
            · rw [h2.1] at hs; exact absurd hs (by simp)
            · rw [h2.2] at hs; exact absurd hs (by simp)
        · rw [if_neg h2]
          simp only [Bool.and_eq_true, Bool.not_eq_true', not_and_or,
            Bool.not_eq_false] at h2
          constructor
          · intro _; exact ⟨p, rfl, h1, h2⟩
          · intro _; rfl
  · intro hp
    unfold validateUrl
    rw [hp]

theorem validateUrl_characterization_witness :
    validateUrl wParse "https://app.example.com" "Website URL" = none :=
  (validateUrl_characterization wParse "https://app.example.com" "Website URL").1.mpr
    ⟨⟨"/"⟩, rfl, Or.inl rfl, Or.inl rfl⟩

end StudioSSO
